import Mathlib

/-!
Verification of the licensing service core (`src/main/handlers.go`).

The embedding models the two handlers `NewLicense` and `RevokeLicense`
and the helper `revokeLicense` from `handlers.go`.  The blob-storage
capability (`NewStorageContext`, `ReadFile`, `WriteFile`), the key
provider (`getPrivateKey`) and the license package (`license.New`,
`License.Encode`) are not part of the visible source; they are modelled
from the specification's description of those capabilities.

File contents are modelled as `List Char` (byte strings); the parsed
membership of the revocation record is the list of newline-separated
segments of the stored content.
-/

namespace Licensing

/-- Errors the storage backend can report.  Modelled from the spec:
`Read(path) -> (bytes, versionToken | NotFound)` and
`ConditionalWrite(... ) -> (success | VersionMismatch | error)`;
the write error is collapsed to a single opaque backend error. -/
inductive StorageError where
  | notFound
  | writeFailed
  deriving DecidableEq, Repr

/-- State of the single durable revocation object (`revocations.txt`):
its content (`none` when the object does not yet exist) and the opaque
version token, which changes on every successful write.  Modelled from
the spec: a single shared durable object plus a version token. -/
structure Store where
  content : Option (List Char)
  version : Nat
  deriving DecidableEq, Repr

/-- Modelled from the spec: `Read(path) -> (bytes, versionToken | NotFound)`.
Reading an absent object reports `notFound`; otherwise the bytes and the
current version token are returned. -/
def ReadFile (s : Store) : Except StorageError (List Char × Nat) :=
  match s.content with
  | none => .error .notFound
  | some d => .ok (d, s.version)

/-- Modelled from the spec: a successful (unconditional) write replaces
the object's content and changes the version token. -/
def WriteFile (s : Store) (d : List Char) : Store :=
  { content := some d, version := s.version + 1 }

/-- Modelled from the spec: the backend write may also fail with an
opaque error.  The outcome of each successive write attempt is injected
through an environment schedule (`sched`); an exhausted schedule means
the attempt succeeds. -/
def WriteFileSched (s : Store) (d : List Char) (sched : List Bool) :
    Except StorageError Store × List Bool :=
  match sched with
  | [] => (.ok (WriteFile s d), [])
  | ok :: rest => (if ok then .ok (WriteFile s d) else .error .writeFailed, rest)

/-- Embedding of `revokeLicense` (`handlers.go` lines 68-95): read the
current `revocations.txt`, fail if the read fails, append a newline and
the id to the bytes read, write the result back (a single attempt), and
fail if the write fails.  Returns the call's outcome, the resulting
store state and the unconsumed part of the write-outcome schedule. -/
def revokeLicense (s : Store) (id : List Char) (sched : List Bool) :
    Except StorageError Unit × Store × List Bool :=
  match ReadFile s with
  | .error e => (.error e, s, sched)
  | .ok (data, _v) =>
    let line := id
    let data2 := data ++ '\n' :: line
    match WriteFileSched s data2 sched with
    | (.error e, rest) => (.error e, s, rest)
    | (.ok s2, rest) => (.ok (), s2, rest)

/-- Embedding of the handler `RevokeLicense` (`handlers.go` lines 98-109):
the id from the route is passed to `revokeLicense` unexamined; an error
maps to HTTP 500, success writes HTTP 200. -/
def RevokeLicense (id : List Char) (s : Store) (sched : List Bool) :
    Nat × Store :=
  match revokeLicense s id sched with
  | (.error _, s2, _) => (500, s2)
  | (.ok _, s2, _) => (200, s2)

/-- Segments of a byte string delimited by the newline character: the
parse of the stored revocation record into its entries. -/
def splitNl : List Char → List (List Char)
  | [] => [[]]
  | c :: rest =>
    if c = '\n' then [] :: splitNl rest
    else
      match splitNl rest with
      | [] => [[c]]
      | l :: ls => (c :: l) :: ls

/-- Membership of the revocation record in a given store state: the
entries of the stored content, empty when the object does not exist. -/
def members (s : Store) : List (List Char) :=
  match s.content with
  | none => []
  | some d => splitNl d

/-- Sequential execution of a list of `revokeLicense` calls, each with
its id and its write-outcome schedule. -/
def runRevokeOps : List (List Char × List Bool) → Store → Store
  | [], s => s
  | (id, sched) :: rest, s => runRevokeOps rest (revokeLicense s id sched).2.1

/-- Phase of one in-flight `revokeLicense` call, splitting the body of
the function at its two backend interactions: before the read, between
the read and the write (holding the bytes it will write and the version
token it read), and finished (`none` = success, `some e` = the error
returned). -/
inductive Phase where
  | reading
  | writing (data : List Char) (verRead : Nat)
  | done (failed : Option StorageError)
  deriving DecidableEq, Repr

/-- One in-flight `revokeLicense` call: the id being revoked and the
phase it has reached. -/
structure RevProc where
  rid : List Char
  phase : Phase
  deriving DecidableEq, Repr

/-- One atomic step of an in-flight `revokeLicense` call against the
shared store, mirroring the code: the read snapshots the content and the
version token (an absent object ends the call with the read error); the
write unconditionally installs the bytes computed from the snapshot, as
`sc.WriteFile` does, and succeeds. -/
def stepProc (st : Store) (p : RevProc) : RevProc × Store :=
  match p.phase with
  | .reading =>
    match ReadFile st with
    | .error e => ({ p with phase := .done (some e) }, st)
    | .ok (data, v) =>
        ({ p with phase := .writing (data ++ '\n' :: p.rid) v }, st)
  | .writing d _verRead => ({ p with phase := .done none }, WriteFile st d)
  | .done _ => (p, st)

/-- Run a schedule of process indices: at each schedule entry the named
in-flight call performs its next atomic step. -/
def runSched : List Nat → List RevProc → Store → List RevProc × Store
  | [], ps, st => (ps, st)
  | i :: rest, ps, st =>
    match ps[i]? with
    | none => runSched rest ps st
    | some p =>
      let (p2, st2) := stepProc st p
      runSched rest (ps.set i p2) st2

/-- The conditional write of the specification (section 4.2 step 4 and
section 6), stated in the spec's words for comparison with the code:
replace the object's content if and only if the object's current version
token still equals the expected one; otherwise reject the write
(`none`, the VersionMismatch outcome) leaving the store unchanged. -/
def specCondWrite (s : Store) (d : List Char) (expected : Nat) : Option Store :=
  if s.version = expected then some (WriteFile s d) else none

/-- Private signing key handed back by the key provider.  Modelled from
the spec: opaque key material, relevant only for being passed on to the
encoder. -/
structure PrivateKey where
  keyId : Nat
  deriving DecidableEq, Repr

/-- License record.  Modelled from the spec: `ID` assigned at creation,
`Product` supplied by the caller, `IssuedAt` stamped at creation. -/
structure License where
  id : String
  product : String
  issuedAt : Nat
  deriving DecidableEq, Repr

/-- Modelled from the spec: `license.New` assembles the canonical
License record from the caller's product plus a freshly generated id and
the current timestamp (both injected here as parameters). -/
def License.new (freshId : String) (now : Nat) (product : String) : License :=
  { id := freshId, product := product, issuedAt := now }

/-- Embedding of the handler `NewLicense` (`handlers.go` lines 43-66).
`body` is the decoded request body (`none` = JSON decoding failed);
`keyProvider` is `getPrivateKey` (modelled from the spec: returns a key
by logical name or fails); `enc` is `License.Encode` with the key
(modelled from the spec: produces the signed token string or fails);
`freshId` and `now` feed `license.New`.  Returns the HTTP status written
and whether key retrieval was attempted. -/
def NewLicense (body : Option String)
    (keyProvider : String → Option PrivateKey)
    (enc : License → PrivateKey → Option String)
    (freshId : String) (now : Nat) : Nat × Bool :=
  match body with
  | none => (400, false)
  | some product =>
    match keyProvider "plugin" with
    | none => (500, true)
    | some key =>
      let lic := License.new freshId now product
      match enc lic key with
      | none => (500, true)
      | some _licStr => (200, true)

theorem splitNl_ne_nil (cs : List Char) : splitNl cs ≠ [] := by
  cases cs with
  | nil => simp [splitNl]
  | cons c rest =>
    simp only [splitNl]
    split
    · simp
    · cases h : splitNl rest <;> simp

theorem splitNl_append_nl (x y : List Char) :
    splitNl (x ++ '\n' :: y) = splitNl x ++ splitNl y := by
  induction x with
  | nil => simp [splitNl]
  | cons c rest ih =>
    by_cases hc : c = '\n'
    · subst hc
      simp [splitNl, ih]
    · simp only [List.cons_append, splitNl, if_neg hc, List.append_eq]
      rw [ih]
      cases h : splitNl rest with
      | nil => exact absurd h (splitNl_ne_nil rest)
      | cons l ls => simp

theorem splitNl_no_nl (id : List Char) (h : '\n' ∉ id) : splitNl id = [id] := by
  induction id with
  | nil => simp [splitNl]
  | cons c rest ih =>
    simp only [List.mem_cons, not_or] at h
    have hc : ¬ c = '\n' := fun hh => h.1 hh.symm
    simp only [splitNl, if_neg hc, ih h.2]

theorem revokeLicense_some (s : Store) (D id : List Char) (hc : s.content = some D) :
    revokeLicense s id [] =
      (.ok (), { content := some (D ++ '\n' :: id), version := s.version + 1 }, []) := by
  simp [revokeLicense, ReadFile, hc, WriteFileSched, WriteFile]

theorem revokeLicense_some_ok (s : Store) (D id : List Char) (rest : List Bool)
    (hc : s.content = some D) :
    revokeLicense s id (true :: rest) =
      (.ok (), { content := some (D ++ '\n' :: id), version := s.version + 1 }, rest) := by
  simp [revokeLicense, ReadFile, hc, WriteFileSched, WriteFile]

theorem revokeLicense_none (s : Store) (id : List Char) (sched : List Bool)
    (hc : s.content = none) :
    revokeLicense s id sched = (.error .notFound, s, sched) := by
  simp [revokeLicense, ReadFile, hc]

theorem mem_members_revoke (s : Store) (id x : List Char) (sched : List Bool)
    (hx : x ∈ members s) : x ∈ members (revokeLicense s id sched).2.1 := by
  cases hc : s.content with
  | none => simp [members, hc] at hx
  | some D =>
    have hmem : x ∈ splitNl (D ++ '\n' :: id) := by
      rw [splitNl_append_nl]
      exact List.mem_append_left _ (by simpa [members, hc] using hx)
    cases sched with
    | nil => simp [revokeLicense_some s D id hc, members, hmem]
    | cons b rest =>
      cases b with
      | true => simp [revokeLicense_some_ok s D id rest hc, members, hmem]
      | false => simpa [revokeLicense, ReadFile, hc, WriteFileSched, members] using hx

theorem mem_members_runRevokeOps (ops : List (List Char × List Bool)) (s : Store)
    (x : List Char) (hx : x ∈ members s) : x ∈ members (runRevokeOps ops s) := by
  induction ops generalizing s with
  | nil => simpa [runRevokeOps] using hx
  | cons op rest ih =>
    exact ih _ (mem_members_revoke s op.1 x op.2 hx)

theorem runRevokeOps_all_mem (ids : List (List Char)) (s : Store) (D : List Char)
    (hc : s.content = some D) (hnl : ∀ id ∈ ids, '\n' ∉ id) :
    ∀ id ∈ ids, id ∈ members (runRevokeOps (ids.map fun i => (i, [])) s) := by
  induction ids generalizing s D with
  | nil => simp
  | cons a rest ih =>
    intro id hid
    have hstep : (revokeLicense s a []).2.1 =
        { content := some (D ++ '\n' :: a), version := s.version + 1 } := by
      rw [revokeLicense_some s D a hc]
    rcases List.mem_cons.mp hid with h | h
    · subst h
      have ha : id ∈ members (revokeLicense s id []).2.1 := by
        rw [hstep]
        simp only [members, splitNl_append_nl,
          splitNl_no_nl id (hnl id (List.mem_cons_self _ _))]
        exact List.mem_append_right _ (List.mem_singleton.mpr rfl)
      simpa [runRevokeOps] using
        mem_members_runRevokeOps (rest.map fun i => (i, [])) _ id ha
    · have := ih (revokeLicense s a []).2.1 (D ++ '\n' :: a) (by rw [hstep])
        (fun i hi => hnl i (List.mem_cons_of_mem _ hi)) id h
      simpa [runRevokeOps] using this

/-- Claim C9 (confirmed): every successful `revokeLicense id` call that
read stored content `D` writes back exactly `D` followed by a newline
followed by `id`; the prior content is preserved byte-for-byte as a
prefix of the new content, and exactly one entry is appended per
successful call, whether or not `id` already occurs in `D`. -/
theorem C9_successful_revoke_appends (s : Store) (D id : List Char) (sched : List Bool)
    (hc : s.content = some D)
    (hok : (revokeLicense s id sched).1 = .ok ()) :
    (revokeLicense s id sched).2.1.content = some (D ++ '\n' :: id) ∧
    (∃ t, (revokeLicense s id sched).2.1.content = some (D ++ t)) ∧
    ('\n' ∉ id → members (revokeLicense s id sched).2.1 = splitNl D ++ [id]) := by
  have hres : (revokeLicense s id sched).2.1.content = some (D ++ '\n' :: id) := by
    cases sched with
    | nil => rw [revokeLicense_some s D id hc]
    | cons b rest =>
      cases b with
      | true => rw [revokeLicense_some_ok s D id rest hc]
      | false => simp [revokeLicense, ReadFile, hc, WriteFileSched] at hok
  refine ⟨hres, ⟨'\n' :: id, hres⟩, fun hnl => ?_⟩
  simp [members, hres, splitNl_append_nl, splitNl_no_nl id hnl]

/-- Claim C9 witness: a concrete successful call on content "x" appends
exactly the entry "a". -/
theorem C9_witness :
    members (revokeLicense ⟨some ['x'], 0⟩ ['a'] []).2.1 = splitNl ['x'] ++ [['a']] :=
  (C9_successful_revoke_appends ⟨some ['x'], 0⟩ ['x'] ['a'] [] rfl rfl).2.2 (by decide)

/-- Claim C8 (confirmed): revocation is monotonic — once an id is a
member of the revocation record, it remains a member after every
subsequent sequence of `revokeLicense` operations, whatever their ids
and whatever their writes' outcomes. -/
theorem C8_revocation_monotonic (ops : List (List Char × List Bool)) (s : Store)
    (x : List Char) (hx : x ∈ members s) : x ∈ members (runRevokeOps ops s) :=
  mem_members_runRevokeOps ops s x hx

/-- Claim C8 witness: a member of a concrete record survives a
subsequent revocation of a different id. -/
theorem C8_witness :
    ['a'] ∈ members (runRevokeOps [(['b'], [])] ⟨some ['a'], 0⟩) :=
  C8_revocation_monotonic [(['b'], [])] ⟨some ['a'], 0⟩ ['a'] (by decide)

/-- Claim C3 counterexample: revoking the same id twice from the empty
record is not write-free and not duplicate-free — the second call also
succeeds, but it changes the stored content and the record afterwards
holds the id twice, contrary to the claim that the second call returns
success without writing and adds no duplicate entry. -/
theorem C3_counterexample :
    ['a'] ∈ members (revokeLicense ⟨some [], 0⟩ ['a'] []).2.1 ∧
    (revokeLicense (revokeLicense ⟨some [], 0⟩ ['a'] []).2.1 ['a'] []).1 = .ok () ∧
    (revokeLicense (revokeLicense ⟨some [], 0⟩ ['a'] []).2.1 ['a'] []).2.1.content ≠
      (revokeLicense ⟨some [], 0⟩ ['a'] []).2.1.content ∧
    (members (revokeLicense (revokeLicense ⟨some [], 0⟩ ['a'] []).2.1 ['a'] []).2.1).count
      ['a'] = 2 :=
  ⟨by decide, rfl, by decide, by decide⟩

/-- Claim C3 amended: calling `revokeLicense id` when `id` is already a
member still succeeds, but it performs another write, appending `id` as
a duplicate entry; the membership of the record, viewed as a set, is
unchanged by the second call. -/
theorem C3_amended_duplicate_append (s : Store) (D id : List Char)
    (hc : s.content = some D) (hnl : '\n' ∉ id) (hmem : id ∈ splitNl D) :
    (revokeLicense s id []).1 = .ok () ∧
    (revokeLicense s id []).2.1.content = some (D ++ '\n' :: id) ∧
    (∀ x, x ∈ members (revokeLicense s id []).2.1 ↔ x ∈ members s) := by
  rw [revokeLicense_some s D id hc]
  refine ⟨rfl, rfl, fun x => ?_⟩
  simp only [members, hc, splitNl_append_nl, splitNl_no_nl id hnl, List.mem_append,
    List.mem_singleton]
  exact ⟨fun h => h.elim (fun hx => hx) (fun hx => hx ▸ hmem), fun h => Or.inl h⟩

/-- Claim C3 amended witness: re-revoking the sole member of a concrete
record succeeds and writes the duplicate. -/
theorem C3_amended_witness :
    (revokeLicense ⟨some ['a'], 0⟩ ['a'] []).1 = .ok () ∧
    (revokeLicense ⟨some ['a'], 0⟩ ['a'] []).2.1.content = some (['a'] ++ '\n' :: ['a']) :=
  (fun h => ⟨h.1, h.2.1⟩)
    (C3_amended_duplicate_append ⟨some ['a'], 0⟩ ['a'] ['a'] rfl (by decide) (by decide))

/-- Claim C5 counterexample: on a store whose revocation object does not
exist, `revokeLicense` fails with the read's notFound error and the
record is not created, contrary to the claim that absence is treated as
the empty set and the call succeeds. -/
theorem C5_counterexample :
    revokeLicense ⟨none, 0⟩ ['a'] [] = (.error .notFound, ⟨none, 0⟩, []) := rfl

/-- Claim C5 amended: when the revocation object does not exist,
`revokeLicense` fails by propagating the read error, for every id and
every write-outcome schedule, and the record is left uncreated; the
object must already exist for a revocation to succeed. -/
theorem C5_amended_absent_fails (v : Nat) (id : List Char) (sched : List Bool) :
    revokeLicense ⟨none, v⟩ id sched = (.error .notFound, ⟨none, v⟩, sched) :=
  revokeLicense_none ⟨none, v⟩ id sched rfl

/-- Claim C4 counterexample: when the single write attempt fails,
`revokeLicense` returns the backend write error immediately even though
the environment would let a second attempt succeed: the remaining
schedule entry is never consumed, so there is no retry and no distinct
concurrent-update-exhaustion error, contrary to the claim. -/
theorem C4_counterexample :
    revokeLicense ⟨some ['x'], 0⟩ ['a'] [false, true] =
      (.error .writeFailed, ⟨some ['x'], 0⟩, [true]) := rfl

/-- Claim C4 amended: `revokeLicense` makes exactly one write attempt
and never retries: if that write fails, the backend error is returned
at once with the rest of the outcome schedule unconsumed, and the stored
object is left exactly in its prior state. -/
theorem C4_amended_single_attempt (s : Store) (D id : List Char) (rest : List Bool)
    (hc : s.content = some D) :
    revokeLicense s id (false :: rest) = (.error .writeFailed, s, rest) := by
  simp [revokeLicense, ReadFile, hc, WriteFileSched]

/-- Claim C4 amended witness: a concrete failing write. -/
theorem C4_amended_witness :
    revokeLicense ⟨some ['x'], 0⟩ ['a'] [false] = (.error .writeFailed, ⟨some ['x'], 0⟩, []) :=
  C4_amended_single_attempt ⟨some ['x'], 0⟩ ['x'] ['a'] [] rfl

/-- Claim C7 counterexample: the handler `RevokeLicense` called with the
empty id on an existing record reports success (HTTP 200) and modifies
the record (an empty entry is appended), contrary to the claim that a
syntactically invalid id fails with a validation error and leaves the
record unmodified. -/
theorem C7_counterexample :
    RevokeLicense [] ⟨some ['x'], 0⟩ [] = (200, ⟨some ['x', '\n'], 1⟩) := rfl

/-- Claim C7 amended: `RevokeLicense` performs no syntactic validation
of the id: every id, the empty string included, is passed to
`revokeLicense` and, when the backend write succeeds, is appended to the
record and reported as success; no invalid-id error exists in the
handler. -/
theorem C7_amended_no_validation (id : List Char) (s : Store) (D : List Char)
    (hc : s.content = some D) :
    RevokeLicense id s [] =
      (200, { content := some (D ++ '\n' :: id), version := s.version + 1 }) := by
  simp [RevokeLicense, revokeLicense_some s D id hc]

/-- Claim C7 amended witness: the empty id on a concrete record. -/
theorem C7_amended_witness :
    RevokeLicense [] ⟨some ['x'], 0⟩ [] =
      (200, { content := some (['x'] ++ '\n' :: []), version := 1 }) :=
  C7_amended_no_validation [] ⟨some ['x'], 0⟩ ['x'] rfl

/-- Claim C6 (code bug): `NewLicense` on a decoded body with the empty
product never produces a client-error response: with a working key
provider and encoder it returns 200 with a signed token, and for every
key provider and encoder the status is 200 or 500, never the documented
400 for an empty product. -/
theorem C6_empty_product_no_client_error :
    NewLicense (some "") (fun _ => some ⟨0⟩) (fun _ _ => some "tok") "id1" 0 = (200, true) ∧
    ∀ kp enc fid now, (NewLicense (some "") kp enc fid now).1 = 200 ∨
      (NewLicense (some "") kp enc fid now).1 = 500 := by
  refine ⟨rfl, fun kp enc fid now => ?_⟩
  simp only [NewLicense]
  cases kp "plugin" with
  | none => simp
  | some k => cases henc : enc (License.new fid now "") k <;> simp [henc]

/-- Claim C10 (confirmed): a body that fails decoding yields 400 with no
key retrieval attempted; for every decoded body, a key-provider failure
under the fixed name "plugin" yields 500 whatever the product (the empty
product included); and the handler's outcome depends on the key provider
only through its value at "plugin". -/
theorem C10_decode_then_key_order :
    (∀ kp enc fid now, NewLicense none kp enc fid now = (400, false)) ∧
    (∀ (p : String) kp enc fid now, kp "plugin" = none →
      NewLicense (some p) kp enc fid now = (500, true)) ∧
    (∀ (body : Option String) kp kp2 enc fid now, kp "plugin" = kp2 "plugin" →
      NewLicense body kp enc fid now = NewLicense body kp2 enc fid now) := by
  refine ⟨fun kp enc fid now => rfl, fun p kp enc fid now hk => ?_, ?_⟩
  · simp [NewLicense, hk]
  · intro body kp kp2 enc fid now hk
    cases body with
    | none => rfl
    | some p => simp only [NewLicense, hk]

/-- Claim C10 witness: a failing key provider on the empty product. -/
theorem C10_witness :
    NewLicense (some "") (fun _ => none) (fun _ _ => some "t") "i" 0 = (500, true) :=
  C10_decode_then_key_order.2.1 "" (fun _ => none) (fun _ _ => some "t") "i" 0 rfl

/-- Claim C1 counterexample: in a concrete two-writer interleaving, one
call reads at version 0, the other then commits (version becomes 1), and
the first call's write still installs its bytes even though the spec's
conditional write at the version it read would have been rejected — so
the write issued by `revokeLicense` is not conditional on the version
token read at the start of the attempt. -/
theorem C1_counterexample :
    ((runSched [0, 1, 1] [⟨['a'], .reading⟩, ⟨['b'], .reading⟩] ⟨some ['x'], 0⟩).1)[0]? =
      some ⟨['a'], .writing ['x', '\n', 'a'] 0⟩ ∧
    specCondWrite (runSched [0, 1, 1] [⟨['a'], .reading⟩, ⟨['b'], .reading⟩] ⟨some ['x'], 0⟩).2
      ['x', '\n', 'a'] 0 = none ∧
    (runSched [0, 1, 1, 0] [⟨['a'], .reading⟩, ⟨['b'], .reading⟩] ⟨some ['x'], 0⟩).2 =
      ⟨some ['x', '\n', 'a'], 2⟩ ∧
    (runSched [0, 1, 1, 0] [⟨['a'], .reading⟩, ⟨['b'], .reading⟩] ⟨some ['x'], 0⟩).1 =
      [⟨['a'], .done none⟩, ⟨['b'], .done none⟩] := by
  decide

/-- Claim C1 amended: every write `revokeLicense` issues is
unconditional: the write step installs the computed bytes and bumps the
version whatever the store's current version token is, and in particular
it still commits when the version has changed since the read, exactly
where the spec's conditional write would reject. -/
theorem C1_amended_write_unconditional (st : Store) (p : RevProc) (d : List Char) (v : Nat)
    (hp : p.phase = .writing d v) :
    (stepProc st p).2 = WriteFile st d ∧ (stepProc st p).1.phase = .done none ∧
    (st.version ≠ v → specCondWrite st d v = none ∧ (stepProc st p).2.content = some d) := by
  cases p with
  | mk rid phase =>
    cases hp
    exact ⟨rfl, rfl, fun hv => ⟨by simp [specCondWrite, hv], rfl⟩⟩

/-- Claim C1 amended witness: a concrete pending write at a stale
version commits anyway, where the spec's conditional write rejects. -/
theorem C1_amended_witness :
    specCondWrite ⟨some ['x'], 1⟩ ['y'] 0 = none ∧
    (stepProc ⟨some ['x'], 1⟩ ⟨['a'], .writing ['y'] 0⟩).2.content = some ['y'] :=
  (C1_amended_write_unconditional ⟨some ['x'], 1⟩ ⟨['a'], .writing ['y'] 0⟩ ['y'] 0 rfl).2.2
    (by decide)

/-- Claim C2 counterexample: two concurrent `revokeLicense` calls for
the distinct ids "a" and "b", both starting from the empty record, both
finish successfully under the interleaving read-read-write-write, yet
the final membership does not contain "a": the first successful
revocation is lost to the racing writer. -/
theorem C2_counterexample :
    (runSched [0, 1, 0, 1] [⟨['a'], .reading⟩, ⟨['b'], .reading⟩] ⟨some [], 0⟩).1 =
      [⟨['a'], .done none⟩, ⟨['b'], .done none⟩] ∧
    ['a'] ∉ members (runSched [0, 1, 0, 1] [⟨['a'], .reading⟩, ⟨['b'], .reading⟩]
      ⟨some [], 0⟩).2 := by
  decide

/-- Claim C2 amended: concurrent `revokeLicense` calls are not
lost-update-free — an interleaving of two successful calls with distinct
ids can leave only the later writer's id a member; it is only under
sequential execution that N calls with N distinct (newline-free) ids
from an existing record leave every one of the N ids a member. -/
theorem C2_amended_sequential_all_ids (ids : List (List Char)) (s : Store) (D : List Char)
    (hc : s.content = some D) (hnl : ∀ id ∈ ids, '\n' ∉ id) :
    ∀ id ∈ ids, id ∈ members (runRevokeOps (ids.map fun i => (i, [])) s) :=
  runRevokeOps_all_mem ids s D hc hnl

/-- Claim C2 amended witness: after two sequential revocations from the
empty record, the first id revoked is still a member. -/
theorem C2_amended_witness :
    ['a'] ∈ members (runRevokeOps ([['a'], ['b']].map fun i => (i, ([] : List Bool)))
      ⟨some [], 0⟩) :=
  C2_amended_sequential_all_ids [['a'], ['b']] ⟨some [], 0⟩ [] rfl (by decide) ['a']
    (by decide)

end Licensing
